import Mathlib

/-!
# Verification of the grove-domain-tool batch orchestrator

Shallow embedding of the worker's core: the heuristic evaluator and
file-level helpers of `src/worker/src/agents/swarm.ts`, the candidate
validation of `src/worker/src/agents/driver.ts`, and the `SearchJobDO`
durable object (its SQLite tables become explicit lists, its alarm/RPC
handlers become state-transition functions).  JS numbers used for scores
and prices are embedded as exact rationals / integers; string case
folding is modelled on ASCII.
-/

namespace Grove

/-- `domain_results.status` column (`"available" | "registered" | "unknown"`). -/
inductive DomStatus where
  | available
  | registered
  | unknown
deriving DecidableEq, Repr

/-- `search_job.status` column.  `types.ts` omits `cancelled`, but
`swarm.ts` writes it via `updateJobStatus("cancelled")`. -/
inductive SearchStatus where
  | pending
  | running
  | complete
  | needs_followup
  | failed
  | cancelled
deriving DecidableEq, Repr

/-- One `domain_results` row (`evaluation_data` is opaque to every claim
and is dropped; `id`/`created_at` are represented by list position). -/
structure DomainRow where
  batch_num : Nat
  domain : String
  tld : String
  status : DomStatus
  price_cents : Option Int
  score : ℚ
  flags : List String
deriving DecidableEq, Repr

/-- `search_artifacts.artifact_type` column. -/
inductive ArtifactType where
  | batch_report
  | strategy_notes
  | followup_quiz
deriving DecidableEq, Repr

/-- One `search_artifacts` row. -/
structure SearchArtifact where
  batch_num : Nat
  artifact_type : ArtifactType
  content : String
deriving DecidableEq, Repr

/-! ## Heuristic evaluator (`swarm.ts`, `quickEvaluate`) -/

/-- `DomainEvaluation` record of `swarm.ts`. -/
structure DomainEvaluation where
  domain : String
  score : ℚ
  worthChecking : Bool
  pronounceable : Bool
  memorable : Bool
  brandFit : Bool
  emailFriendly : Bool
  flags : List String
  notes : String
deriving DecidableEq, Repr

/-- ASCII case folding of a whole string (`String.toLower`, restated over
the character list so that it evaluates inside the kernel). -/
def strToLower (s : String) : String := String.mk (s.data.map Char.toLower)

/-- Splits a character list at `'.'`, accumulating the current label in
reverse; mirrors `String.splitOn "."`. -/
def splitOnDotAux : List Char → List Char → List (List Char)
  | [], acc => [acc.reverse]
  | c :: cs, acc =>
    if c = '.' then acc.reverse :: splitOnDotAux cs []
    else splitOnDotAux cs (c :: acc)

/-- `domain.split(".")`. -/
def splitParts (d : String) : List String :=
  (splitOnDotAux d.data []).map String.mk

/-- `parts[0] || ""` — the leading label. -/
def namePart (d : String) : String := (splitParts d).headD ""

/-- `parts.length > 1 ? parts[parts.length - 1] : ""` — the trailing label. -/
def tldPart (d : String) : String :=
  if (splitParts d).length > 1 then (splitParts d).getLastD "" else ""

/-- `name.length <= 8 ? 1.0 : Math.max(0.3, 1.0 - (name.length - 8) * 0.1)`
(`swarm.ts` line 301); `Math.max` is spelled out as an `if` so the whole
definition evaluates inside the kernel. -/
def lengthScore (n : Nat) : ℚ :=
  if n ≤ 8 then 1
  else if 1 - ((n : ℚ) - 8) * (1/10) ≤ 3/10 then 3/10
  else 1 - ((n : ℚ) - 8) * (1/10)

/-- The `tldScores` table of `quickEvaluate` with its `|| 0.5` default. -/
def tldScore (tld : String) : ℚ :=
  if tld = "com" then 1
  else if tld = "co" then 9/10
  else if tld = "io" then 17/20
  else if tld = "dev" then 4/5
  else if tld = "app" then 4/5
  else if tld = "me" then 3/4
  else if tld = "net" then 7/10
  else if tld = "org" then 7/10
  else 1/2

/-- Membership in the regex class `[bcdfghjklmnpqrstvwxyz]`. -/
def isConsonant (c : Char) : Bool :=
  c = 'b' || c = 'c' || c = 'd' || c = 'f' || c = 'g' || c = 'h' || c = 'j' ||
  c = 'k' || c = 'l' || c = 'm' || c = 'n' || c = 'p' || c = 'q' || c = 'r' ||
  c = 's' || c = 't' || c = 'v' || c = 'w' || c = 'x' || c = 'y' || c = 'z'

/-- Scans for a run of at least four consecutive consonants, carrying the
length of the current run. -/
def hasConsRunAux : List Char → Nat → Bool
  | [], _ => false
  | c :: cs, k =>
    if isConsonant c then
      if k + 1 ≥ 4 then true else hasConsRunAux cs (k + 1)
    else hasConsRunAux cs 0

/-- `/[bcdfghjklmnpqrstvwxyz]{4,}/` tested against `name.toLowerCase()`. -/
def hasConsonantRun (s : String) : Bool := hasConsRunAux (s.data.map Char.toLower) 0

/-- `Math.round(score * 100) / 100`; Mathlib's `round` on ℚ is
`⌊x + 1/2⌋`, which matches `Math.round` (half towards +∞). -/
def round2 (q : ℚ) : ℚ := ((round (q * 100) : ℤ) : ℚ) / 100

/-- The `score` accumulation inside `quickEvaluate` before the final
rounding: `(lengthScore + tldScore) / 2`, then the `0.7`, `0.8` and
`0.85` penalty multiplications in source order. -/
def quickRawScore (domain : String) : ℚ :=
  let name := namePart domain
  let lScore := lengthScore name.data.length
  let tScore := tldScore (tldPart domain)
  let pronounceable := !(hasConsonantRun name)
  let hasNumbers := name.data.any Char.isDigit
  let hasHyphens := name.data.contains '-'
  let score0 := (lScore + tScore) / 2
  let score1 := if !pronounceable then score0 * (7/10) else score0
  let score2 := if hasNumbers then score1 * (4/5) else score1
  if hasHyphens then score2 * (17/20) else score2

/-- `quickEvaluate` of `swarm.ts`: heuristic fallback evaluation.  The
stored `score` is rounded to two decimals; `worthChecking` and
`brandFit` compare the unrounded accumulator. -/
def quickEvaluate (domain : String) : DomainEvaluation :=
  let name := namePart domain
  let tld := tldPart domain
  let pronounceable := !(hasConsonantRun name)
  let hasNumbers := name.data.any Char.isDigit
  let hasHyphens := name.data.contains '-'
  let score3 := quickRawScore domain
  let flags :=
    (if hasNumbers then ["contains numbers"] else []) ++
    (if hasHyphens then ["contains hyphens"] else []) ++
    (if !pronounceable then ["hard to pronounce"] else [])
  { domain := domain
    score := round2 score3
    worthChecking := decide (score3 > 2/5)
    pronounceable := pronounceable
    memorable := decide (name.data.length ≤ 12)
    brandFit := decide (score3 > 1/2)
    emailFriendly := !hasNumbers && !hasHyphens
    flags := flags
    notes := "Quick eval: length=" ++ toString name.data.length ++ ", tld=." ++ tld }

/-- `filterWorthChecking` of `swarm.ts` (`minScore` left at its default 0.4,
written `mkRat 2 5`). -/
def filterWorthChecking (evaluations : List DomainEvaluation) : List DomainEvaluation :=
  evaluations.filter (fun e => e.worthChecking && decide (e.score ≥ mkRat 2 5))

/-! ## Candidate parsing and validation (`driver.ts`) -/

/-- `DomainCandidate` record of `driver.ts`. -/
structure DomainCandidate where
  domain : String
  batchNum : Nat
  tld : String
  name : String
deriving DecidableEq, Repr

/-- Membership in the regex class `[a-z0-9]`. -/
def isLdh (c : Char) : Bool := c.isLower || c.isDigit

/-- `/^[a-z0-9]([a-z0-9-]*[a-z0-9])?$/` tested against a label. -/
def nameMatches (s : String) : Bool :=
  match s.data with
  | [] => false
  | [c] => isLdh c
  | c :: cs =>
    isLdh c && isLdh (cs.getLastD ' ') &&
      cs.dropLast.all (fun x => isLdh x || x = '-')

/-- `isValidDomain` of `driver.ts`: length, period, TLD shape
(`/^[a-z]+$/` with length ≥ 2) and leading-label shape checks, applied to
the lowercased string. -/
def isValidDomain (domain : String) : Bool :=
  if domain.data.length < 4 then false
  else if !(domain.data.contains '.') then false
  else
    let parts := splitParts (strToLower domain)
    let tld := parts.getLastD ""
    if tld.data.length < 2 || !(tld.data.all Char.isLower) then false
    else
      let name := parts.headD ""
      if name.data.length < 1 || name.data.length > 63 then false
      else nameMatches name

/-- `createCandidate` of `driver.ts`. -/
def createCandidate (domain : String) (batchNum : Nat) : DomainCandidate :=
  let parts := splitParts (strToLower domain)
  { domain := strToLower domain
    batchNum := batchNum
    tld := if parts.length > 1 then parts.getLastD "" else ""
    name := parts.headD "" }

/-- The accept-and-deduplicate loop shared by `parseToolCall` and
`parseCandidates` in `driver.ts`: a domain is accepted when it is valid
and its lowercase form is not in the `seen` set; accepted domains add
their lowercase form to `seen`. -/
def collectCandidates (batchNum : Nat) : List String → List String → List DomainCandidate
  | _, [] => []
  | seen, d :: ds =>
    if isValidDomain d && !(seen.contains (strToLower d)) then
      createCandidate d batchNum ::
        collectCandidates batchNum (strToLower d :: seen) ds
    else
      collectCandidates batchNum seen ds

/-- One tool call of the model reply, already narrowed to the
`{ domains: string[] }` argument shape of `DRIVER_TOOL`. -/
structure DriverToolCall where
  toolName : String
  domains : List String
deriving DecidableEq, Repr

/-- `DRIVER_TOOL.name` (`providers/tools.ts`). -/
def DRIVER_TOOL_NAME : String := "generate_domain_candidates"

/-- `parseToolCall` of `driver.ts`: walks every tool call named
`generate_domain_candidates`, sharing one `seen` set across calls. -/
def parseToolCall (toolCalls : List DriverToolCall) (batchNum : Nat) : List DomainCandidate :=
  collectCandidates batchNum []
    ((toolCalls.filter (fun tc => tc.toolName = DRIVER_TOOL_NAME)).flatMap
      (fun tc => tc.domains))

/-! ## SearchJobDO state (`swarm.ts`)

The durable object's SQLite tables become explicit lists: `search_job`
(at most one row) becomes `Option SearchJob`, `domain_results` and
`search_artifacts` become lists ordered by rowid.  The single pending
wake-up becomes `Option Nat` holding the delay of the latest arming.
`created_at`/`updated_at` timestamps are real time and are dropped. -/

/-- The single `search_job` row. -/
structure SearchJob where
  id : String
  client_id : String
  status : SearchStatus
  batch_num : Nat
  quiz_responses : String
  followup_responses : Option String
  error : Option String
  total_input_tokens : Nat
  total_output_tokens : Nat
deriving DecidableEq, Repr

/-- The persistent state of one durable object instance. -/
structure DOState where
  job : Option SearchJob
  domain_results : List DomainRow
  artifacts : List SearchArtifact
  alarm : Option Nat
deriving Repr

/-- A fresh durable object: empty tables, no pending alarm. -/
def initState : DOState :=
  { job := none, domain_results := [], artifacts := [], alarm := none }

/-- `env.MAX_BATCHES` / `env.TARGET_RESULTS` after `parseInt` with the
source defaults 6 and 25. -/
structure Config where
  maxBatches : Nat
  targetResults : Nat
deriving DecidableEq, Repr

/-- The deployment defaults (`parseInt(this.env.MAX_BATCHES || "6")`,
`parseInt(this.env.TARGET_RESULTS || "25")`). -/
def defaultConfig : Config := { maxBatches := 6, targetResults := 25 }

/-- `getGoodResultsCount` of `swarm.ts`:
`COUNT(*) WHERE status = 'available' AND score >= 0.8`. -/
def getGoodResultsCount (rows : List DomainRow) : Nat :=
  rows.countP (fun r => r.status == DomStatus.available && decide (mkRat 4 5 ≤ r.score))

/-- `getGoodResultsCount` of the legacy `durable-object.ts` variant:
`COUNT(*) WHERE status = 'available' AND score >= 0.4`. -/
def legacyGetGoodResultsCount (rows : List DomainRow) : Nat :=
  rows.countP (fun r => r.status == DomStatus.available && decide (mkRat 2 5 ≤ r.score))

/-- `getTotalDomainsChecked`: `COUNT(*) FROM domain_results`. -/
def getTotalDomainsChecked (rows : List DomainRow) : Nat := rows.length

/-- `getAvailableDomainsCount`: `COUNT(*) WHERE status = 'available'`. -/
def getAvailableDomainsCount (rows : List DomainRow) : Nat :=
  rows.countP (fun r => r.status == DomStatus.available)

/-- `getCheckedDomains`: `SELECT domain FROM domain_results`. -/
def getCheckedDomains (rows : List DomainRow) : List String :=
  rows.map (fun r => r.domain)

/-- `getAvailableDomains`: `SELECT domain WHERE status = 'available'`. -/
def getAvailableDomains (rows : List DomainRow) : List String :=
  (rows.filter (fun r => r.status == DomStatus.available)).map (fun r => r.domain)

/-- `updateJobStatus`: sets `status`, and `error` only when one is given. -/
def updateJobStatus (s : DOState) (status : SearchStatus) (err : Option String) : DOState :=
  match s.job with
  | none => s
  | some j =>
    { s with
      job := some { j with
        status := status
        error := match err with
          | some e => some e
          | none => j.error } }

/-- `incrementBatchNum`: `SET batch_num = batch_num + 1`, then re-reads the
job (`job?.batch_num ?? 0`). -/
def incrementBatchNum (s : DOState) : DOState × Nat :=
  match s.job with
  | none => (s, 0)
  | some j =>
    ({ s with job := some { j with batch_num := j.batch_num + 1 } }, j.batch_num + 1)

/-- `addTokenUsage`: adds to both monotone token counters. -/
def addTokenUsage (s : DOState) (inTok outTok : Nat) : DOState :=
  match s.job with
  | none => s
  | some j =>
    { s with
      job := some { j with
        total_input_tokens := j.total_input_tokens + inTok
        total_output_tokens := j.total_output_tokens + outTok } }

/-- `scheduleAlarm`: `storage.setAlarm` replaces any pending wake-up; the
stored value is the requested delay in milliseconds. -/
def scheduleAlarm (s : DOState) (delayMs : Nat) : DOState :=
  { s with alarm := some delayMs }

/-- `INSERT OR REPLACE INTO domain_results` under the `UNIQUE` constraint
on `domain`: the conflicting row is deleted and the new row appended with
a fresh rowid. -/
def insertOrReplace (rows : List DomainRow) (r : DomainRow) : List DomainRow :=
  rows.filter (fun x => !(x.domain == r.domain)) ++ [r]

/-- `saveDomainResult` of `swarm.ts`: the `INSERT OR REPLACE` is wrapped
in `try/catch`, so a failing insert (modelled by the `persistFails`
oracle) is logged and dropped without an exception. -/
def saveDomainResult (persistFails : String → Bool) (rows : List DomainRow)
    (r : DomainRow) : List DomainRow :=
  if persistFails r.domain then rows else insertOrReplace rows r

/-- `saveArtifact`: plain `INSERT INTO search_artifacts`. -/
def saveArtifact (arts : List SearchArtifact) (a : SearchArtifact) : List SearchArtifact :=
  arts ++ [a]

/-- `/start` request body (provider overrides are opaque to every claim
and are dropped). -/
structure StartBody where
  job_id : String
  client_id : String
  quiz_responses : String
deriving DecidableEq, Repr

/-- `handleStart`: 409 when a job row exists, otherwise inserts the row
with `status = 'running'` (and the schema default `batch_num = 0`), arms
an immediate alarm and returns 201. -/
def handleStart (body : StartBody) (s : DOState) : Nat × DOState :=
  match s.job with
  | some _ => (409, s)
  | none =>
    let j : SearchJob :=
      { id := body.job_id
        client_id := body.client_id
        status := SearchStatus.running
        batch_num := 0
        quiz_responses := body.quiz_responses
        followup_responses := none
        error := none
        total_input_tokens := 0
        total_output_tokens := 0 }
    (201, scheduleAlarm { s with job := some j } 0)

/-- `handleResume`: 400 unless `status = 'needs_followup'`; records the
responses, returns to `running`, arms an immediate alarm. -/
def handleResume (responses : String) (s : DOState) : Nat × DOState :=
  match s.job with
  | none => (404, s)
  | some j =>
    if j.status ≠ SearchStatus.needs_followup then (400, s)
    else
      (200, scheduleAlarm
        { s with job := some { j with
            status := SearchStatus.running
            followup_responses := some responses } } 0)

/-- `handleCancel`: 400 unless `status` is `running` or `pending`;
otherwise transitions to `cancelled`. -/
def handleCancel (s : DOState) : Nat × DOState :=
  match s.job with
  | none => (404, s)
  | some j =>
    if j.status ≠ SearchStatus.running ∧ j.status ≠ SearchStatus.pending then (400, s)
    else (200, updateJobStatus s SearchStatus.cancelled none)

/-! ## The batch pipeline (`swarm.ts`, `processBatch`) -/

/-- `BatchResult` of `types.ts` (`duration_ms` is wall-clock time and is
dropped). -/
structure BatchResult where
  batch_num : Nat
  candidates_generated : Nat
  candidates_evaluated : Nat
  domains_checked : Nat
  domains_available : Nat
  new_good_results : Nat
deriving DecidableEq, Repr

/-- `JSON.stringify` of a `BatchResult`; the rendering is opaque to every
claim, only its injectivity-free existence as artifact text matters. -/
def batchReportContent (r : BatchResult) : String :=
  "batch_report " ++ toString r.batch_num ++ " " ++
    toString r.candidates_generated ++ " " ++ toString r.candidates_evaluated ++ " " ++
    toString r.domains_checked ++ " " ++ toString r.domains_available ++ " " ++
    toString r.new_good_results

/-- The follow-up quiz JSON of `generateFollowupQuiz` (three fixed
questions plus a context block); opaque to every claim. -/
def followupQuizContent (jobId : String) (batches checked good target : Nat) : String :=
  "followup_quiz " ++ jobId ++ " " ++ toString batches ++ " " ++
    toString checked ++ " " ++ toString good ++ " " ++ toString target

/-- `generateCandidates` outcome (`driver.ts`): candidates and token usage. -/
structure DriverResult where
  candidates : List DomainCandidate
  inputTokens : Nat
  outputTokens : Nat

/-- The network environment of one `processBatch` invocation.  The
generator and the RDAP bulk check may throw (scenario: fatal pipeline
fault); the evaluator never throws (`evaluateChunk` catches everything
and falls back to `quickEvaluate`); pricing errors are caught inside
`processBatch`.  `persistFails` says which row inserts raise an
`SqlStorage` error inside `saveDomainResult`. -/
structure BatchEnv where
  driver : Except String DriverResult
  swarmEvals : List DomainEvaluation
  swarmInputTokens : Nat
  swarmOutputTokens : Nat
  rdap : Except String (String → DomStatus)
  pricing : Except String (String → Option Int)
  persistFails : String → Bool

/-- `candidate?.tld || domain.split(".").pop() || ""` — JS `||` falls
through on an empty (falsy) `tld` string. -/
def tldOrSplit (cand : Option DomainCandidate) (domain : String) : String :=
  match cand with
  | some c => if c.tld ≠ "" then c.tld else (splitParts domain).getLastD ""
  | none => (splitParts domain).getLastD ""

/-- `processBatch` of `swarm.ts`.  Returns the alarm-visible outcome
(`.error` models an exception escaping the pipeline) together with the
mutated state; partial mutations before a throw are kept, as they are in
SQLite. -/
def processBatch (env : BatchEnv) (s : DOState) : Except String BatchResult × DOState :=
  let p := incrementBatchNum s
  let s1 := p.1
  let batchNum := p.2
  let checkedDomains := getCheckedDomains s1.domain_results
  match env.driver with
  | Except.error e => (Except.error e, s1)
  | Except.ok driverResult =>
    let s2 := addTokenUsage s1 driverResult.inputTokens driverResult.outputTokens
    let checkedSet := checkedDomains.map strToLower
    let newCandidates := driverResult.candidates.filter
      (fun c => !(checkedSet.contains (strToLower c.domain)))
    if newCandidates.isEmpty then
      (Except.ok
        { batch_num := batchNum
          candidates_generated := driverResult.candidates.length
          candidates_evaluated := 0
          domains_checked := 0
          domains_available := 0
          new_good_results := 0 }, s2)
    else
      let evals := env.swarmEvals
      let s3 := addTokenUsage s2 env.swarmInputTokens env.swarmOutputTokens
      let worthChecking := filterWorthChecking evals
      if worthChecking.isEmpty then
        let rows := evals.foldl
          (fun acc e =>
            saveDomainResult env.persistFails acc
              { batch_num := batchNum
                domain := e.domain
                tld := tldOrSplit (newCandidates.find? (fun c => c.domain == e.domain)) e.domain
                status := DomStatus.unknown
                price_cents := none
                score := e.score
                flags := e.flags }) s3.domain_results
        (Except.ok
          { batch_num := batchNum
            candidates_generated := driverResult.candidates.length
            candidates_evaluated := evals.length
            domains_checked := 0
            domains_available := 0
            new_good_results := 0 }, { s3 with domain_results := rows })
      else
        match env.rdap with
        | Except.error e => (Except.error e, s3)
        | Except.ok rdapOf =>
          let rdapResults := (worthChecking.map (fun e => e.domain)).map
            (fun d => (d, rdapOf d))
          let availableList := (rdapResults.filter
            (fun q => q.2 == DomStatus.available)).map (fun q => q.1)
          let pricingMap : String → Option Int :=
            match env.pricing with
            | Except.error _ => fun _ => none
            | Except.ok f => fun d => if availableList.contains d then f d else none
          let evalFor : String → Option DomainEvaluation := fun d =>
            evals.reverse.find? (fun e => strToLower e.domain == strToLower d)
          let candFor : String → Option DomainCandidate := fun d =>
            newCandidates.find? (fun c => strToLower c.domain == strToLower d)
          let rowFor : String × DomStatus → DomainRow := fun q =>
            { batch_num := batchNum
              domain := q.1
              tld := tldOrSplit (candFor q.1) q.1
              status := q.2
              price_cents := pricingMap q.1
              score := match evalFor q.1 with
                | some e => e.score
                | none => mkRat 1 2
              flags := match evalFor q.1 with
                | some e => e.flags
                | none => [] }
          let rows4 := (rdapResults.map rowFor).foldl
            (saveDomainResult env.persistFails) s3.domain_results
          let domainsAvailable := rdapResults.countP
            (fun q => q.2 == DomStatus.available)
          let newGoodResults := rdapResults.countP
            (fun q => q.2 == DomStatus.available &&
              decide (mkRat 2 5 ≤ (match evalFor q.1 with
                | some e => e.score
                | none => 0)))
          let skipped := evals.filter
            (fun e => (worthChecking.find? (fun w => w.domain == e.domain)).isNone)
          let rows5 := skipped.foldl
            (fun acc e =>
              saveDomainResult env.persistFails acc
                { batch_num := batchNum
                  domain := e.domain
                  tld := tldOrSplit (newCandidates.find? (fun c => c.domain == e.domain)) e.domain
                  status := DomStatus.unknown
                  price_cents := none
                  score := e.score
                  flags := e.flags }) rows4
          let result : BatchResult :=
            { batch_num := batchNum
              candidates_generated := driverResult.candidates.length
              candidates_evaluated := evals.length
              domains_checked := rdapResults.length
              domains_available := domainsAvailable
              new_good_results := newGoodResults }
          let arts := saveArtifact s3.artifacts
            { batch_num := batchNum
              artifact_type := ArtifactType.batch_report
              content := batchReportContent result }
          (Except.ok result, { s3 with domain_results := rows5, artifacts := arts })

/-- `generateFollowupQuiz` of `swarm.ts`: stores a `followup_quiz`
artifact (its internal `try/catch` can only trip on real I/O, which the
embedding has none of). -/
def generateFollowupQuiz (cfg : Config) (s : DOState) (job : SearchJob) : DOState :=
  let a : SearchArtifact :=
    { batch_num := job.batch_num
      artifact_type := ArtifactType.followup_quiz
      content := followupQuizContent job.id job.batch_num
        (getTotalDomainsChecked s.domain_results)
        (getGoodResultsCount s.domain_results) cfg.targetResults }
  { s with artifacts := saveArtifact s.artifacts a }

/-- `alarm` of `swarm.ts`: the terminal-state guard, one `processBatch`,
then the re-arm decision; a batch exception transitions to `failed`.
Emails (`sendCompletionEmail` / `sendFollowupQuizEmail`) never mutate the
job store and are dropped. -/
def alarmHandler (cfg : Config) (env : BatchEnv) (s : DOState) : DOState :=
  match s.job with
  | none => s
  | some job =>
    if job.status ≠ SearchStatus.running then s
    else
      let pr := processBatch env s
      let s1 := pr.2
      match pr.1 with
      | Except.error e => updateJobStatus s1 SearchStatus.failed (some e)
      | Except.ok _ =>
        match s1.job with
        | none => s1
        | some updatedJob =>
          let goodResults := getGoodResultsCount s1.domain_results
          if goodResults ≥ cfg.targetResults then
            updateJobStatus s1 SearchStatus.complete none
          else if updatedJob.batch_num ≥ cfg.maxBatches then
            let s2 := updateJobStatus s1 SearchStatus.needs_followup none
            generateFollowupQuiz cfg s2 updatedJob
          else
            scheduleAlarm s1 (10 * 1000)

/-! ## `/results` and pricing (`swarm.ts`, `handleGetResults` /
`getPricingSummary`) -/

/-- The per-row `pricing_category` annotation of `handleGetResults`:
`r.price_cents ? (r.price_cents <= 3000 ? "bundled" : r.price_cents <=
5000 ? "recommended" : "premium") : "unknown"`.  The JS condition is
truthiness, so a price of 0 cents lands in `"unknown"` exactly like
`NULL`. -/
def pricingCategory (price_cents : Option Int) : String :=
  match price_cents with
  | none => "unknown"
  | some p =>
    if p = 0 then "unknown"
    else if p ≤ 3000 then "bundled"
    else if p ≤ 5000 then "recommended"
    else "premium"

/-- The SQL `CASE` of `getPricingSummary`: here `NULL` alone maps to
`unknown`, and a 0-cent price satisfies `price_cents <= 3000`. -/
def summaryCategory (price_cents : Option Int) : String :=
  match price_cents with
  | none => "unknown"
  | some p =>
    if p ≤ 3000 then "bundled"
    else if p ≤ 5000 then "recommended"
    else if p > 5000 then "premium"
    else "standard"

/-- `getPricingSummary` as a histogram function: the count of available
rows in a category (the source materialises this as a record with keys
`bundled`, `recommended`, `standard`, `premium`, `unknown`). -/
def getPricingSummary (rows : List DomainRow) (category : String) : Nat :=
  (rows.filter (fun r => r.status == DomStatus.available)).countP
    (fun r => summaryCategory r.price_cents == category)

/-- The `price_cents ASC NULLS LAST` comparison. -/
def priceLE : Option Int → Option Int → Bool
  | _, none => true
  | none, some _ => false
  | some p, some q => decide (p ≤ q)

/-- The `ORDER BY score DESC, price_cents ASC NULLS LAST` total preorder. -/
def resultsOrder (a b : DomainRow) : Prop :=
  b.score < a.score ∨ (a.score = b.score ∧ priceLE a.price_cents b.price_cents = true)

instance : DecidableRel resultsOrder := fun a b => by
  unfold resultsOrder; infer_instance

instance : IsTotal DomainRow resultsOrder := by
  constructor
  intro a b
  have hp : priceLE a.price_cents b.price_cents = true ∨
      priceLE b.price_cents a.price_cents = true := by
    cases a.price_cents with
    | none =>
      cases b.price_cents with
      | none => left; simp [priceLE]
      | some q => right; simp [priceLE]
    | some p =>
      cases b.price_cents with
      | none => left; simp [priceLE]
      | some q =>
        rcases le_total p q with h | h
        · left; simp [priceLE, h]
        · right; simp [priceLE, h]
  rcases lt_trichotomy a.score b.score with h | h | h
  · exact Or.inr (Or.inl h)
  · rcases hp with hp | hp
    · exact Or.inl (Or.inr ⟨h, hp⟩)
    · exact Or.inr (Or.inr ⟨h.symm, hp⟩)
  · exact Or.inl (Or.inl h)

instance : IsTrans DomainRow resultsOrder := by
  constructor
  intro a b c hab hbc
  have ptrans : ∀ x y z : Option Int, priceLE x y = true → priceLE y z = true →
      priceLE x z = true := by
    intro x y z h1 h2
    cases x with
    | none =>
      cases z with
      | none => simp [priceLE]
      | some r =>
        cases y with
        | none => simp [priceLE] at h2
        | some q => simp [priceLE] at h1
    | some p =>
      cases z with
      | none => simp [priceLE]
      | some r =>
        cases y with
        | none => simp [priceLE] at h2
        | some q =>
          simp only [priceLE, decide_eq_true_eq] at h1 h2 ⊢
          exact le_trans h1 h2
  unfold resultsOrder at hab hbc ⊢
  rcases hab with h1 | ⟨h1, h1p⟩
  · rcases hbc with h2 | ⟨h2, _⟩
    · exact Or.inl (lt_trans h2 h1)
    · exact Or.inl (h2 ▸ h1)
  · rcases hbc with h2 | ⟨h2, h2p⟩
    · exact Or.inl (h1 ▸ h2)
    · exact Or.inr ⟨h1.trans h2, ptrans _ _ _ h1p h2p⟩

/-- One element of the `domains` array returned by `handleGetResults`
(`price_display` is derived text and is dropped; `flags` and
`evaluation_data` are carried unchanged inside `row`). -/
structure AnnotatedResult where
  row : DomainRow
  pricing_category : String
deriving DecidableEq, Repr

/-- `handleGetResults` of `swarm.ts`: the available rows sorted by
`score DESC, price_cents ASC NULLS LAST`, limited to 50, each annotated
with its pricing category. -/
def handleGetResults (rows : List DomainRow) : List AnnotatedResult :=
  ((List.insertionSort resultsOrder
      (rows.filter (fun r => r.status == DomStatus.available))).take 50).map
    (fun r => { row := r, pricing_category := pricingCategory r.price_cents })

/-! ## RPC-level trace semantics

One job's externally visible history is a list of events: `/start`,
`/resume`, `/cancel` requests and alarm firings.  `/status`, `/results`,
`/followup` and `/stream` are pure reads and do not appear.  The runtime
fires the alarm only while one is armed, and firing consumes it. -/

/-- An externally triggered transition of one durable object. -/
inductive Event where
  | start (body : StartBody)
  | alarmFire (env : BatchEnv)
  | resume (responses : String)
  | cancel

/-- Whether an event is a `/resume` call. -/
def Event.isResume : Event → Bool
  | Event.resume _ => true
  | _ => false

/-- Whether an event is a `/start` call. -/
def Event.isStart : Event → Bool
  | Event.start _ => true
  | _ => false

/-- One transition.  An `alarmFire` against a disarmed object is a
no-op; otherwise it consumes the pending alarm and runs the handler. -/
def step (cfg : Config) (s : DOState) (e : Event) : DOState :=
  match e with
  | Event.start body => (handleStart body s).2
  | Event.alarmFire env =>
    match s.alarm with
    | none => s
    | some _ => alarmHandler cfg env { s with alarm := none }
  | Event.resume r => (handleResume r s).2
  | Event.cancel => (handleCancel s).2

/-- Runs a trace of events from a state. -/
def run (cfg : Config) (s : DOState) (evs : List Event) : DOState :=
  evs.foldl (step cfg) s

/-- The HTTP codes answered to the `/start` calls of a trace, in order. -/
def startCodes (cfg : Config) : DOState → List Event → List Nat
  | _, [] => []
  | s, e :: evs =>
    match e with
    | Event.start body => (handleStart body s).1 :: startCodes cfg (step cfg s e) evs
    | _ => startCodes cfg (step cfg s e) evs

/-! ## Specification-side definitions

These definitions follow the words of the spec (for refinement
comparison against the source-derived definitions above), plus the
invariant used by the batch-budget proof. -/

/-- The length score as the amended claim words it: 1.0 up to eight
characters, then a 0.1-per-character decay that first attains the 0.3
floor at leading-label length 15, and 0.3 from there on. -/
def specLengthScore (n : Nat) : ℚ :=
  if n ≤ 8 then 1 else if n ≤ 15 then 1 - ((n : ℚ) - 8) * (1/10) else 3/10

/-- The final heuristic score as the claim words it: the average of
length score and TLD weight, times each applicable penalty factor. -/
def rawScore (d : String) : ℚ :=
  ((specLengthScore (namePart d).data.length + tldScore (tldPart d)) / 2) *
    (if hasConsonantRun (namePart d) then 7/10 else 1) *
    (if (namePart d).data.any Char.isDigit then 4/5 else 1) *
    (if (namePart d).data.contains '-' then 17/20 else 1)

/-- The claim's candidate-validation conditions, worded as in the spec:
total length at least 4, a period present, trailing label of the
case-folded string at least two alphabetic characters, leading label
matching `^[a-z0-9]([a-z0-9-]*[a-z0-9])?$` with length at most 63. -/
def specValidDomain (d : String) : Prop :=
  4 ≤ d.data.length ∧ '.' ∈ d.data ∧
  2 ≤ ((splitParts (strToLower d)).getLastD "").data.length ∧
  ((splitParts (strToLower d)).getLastD "").data.all Char.isLower = true ∧
  ((splitParts (strToLower d)).headD "").data.length ≤ 63 ∧
  nameMatches ((splitParts (strToLower d)).headD "") = true

/-- The batch-budget invariant: each recorded resume relaxes the bound
by one, and a running job is strictly below its bound. -/
def BatchInv (cfg : Config) (r : Nat) (s : DOState) : Prop :=
  ∀ j, s.job = some j →
    j.batch_num ≤ cfg.maxBatches + r ∧
    (j.status = SearchStatus.running → j.batch_num < cfg.maxBatches + r)

/-! ## Concrete instances used by counterexamples and witnesses -/

/-- A batch environment whose generator returns zero candidates and
whose lookups never fire. -/
def emptyDriverEnv : BatchEnv :=
  { driver := Except.ok { candidates := [], inputTokens := 0, outputTokens := 0 }
    swarmEvals := []
    swarmInputTokens := 0
    swarmOutputTokens := 0
    rdap := Except.ok fun _ => DomStatus.unknown
    pricing := Except.ok fun _ => none
    persistFails := fun _ => false }

/-- A `/start` body. -/
def c2Body : StartBody :=
  { job_id := "job-1", client_id := "client-1", quiz_responses := "quiz" }

/-- Start, exhaust the six-batch budget with empty batches, resume, and
run one more batch. -/
def c2Trace : List Event :=
  [Event.start c2Body] ++ List.replicate 6 (Event.alarmFire emptyDriverEnv) ++
    [Event.resume "followup", Event.alarmFire emptyDriverEnv]

/-- An available row whose score sits between the two thresholds. -/
def c1Row : DomainRow :=
  { batch_num := 1, domain := "sunrise.io", tld := "io",
    status := DomStatus.available, price_cents := some 1200,
    score := mkRat 1 2, flags := [] }

/-- An evaluation of the same domain with score 0.5, worth checking. -/
def c1Eval : DomainEvaluation :=
  { domain := "sunrise.io", score := mkRat 1 2, worthChecking := true,
    pronounceable := true, memorable := true, brandFit := true,
    emailFriendly := true, flags := [], notes := "" }

/-- The generator candidate matching `c1Eval`. -/
def c1Cand : DomainCandidate :=
  { domain := "sunrise.io", batchNum := 4, tld := "io", name := "sunrise" }

/-- A batch in which `sunrise.io` is generated, evaluated at 0.5, found
available and priced. -/
def c1Env : BatchEnv :=
  { driver := Except.ok { candidates := [c1Cand], inputTokens := 0, outputTokens := 0 }
    swarmEvals := [c1Eval]
    swarmInputTokens := 0
    swarmOutputTokens := 0
    rdap := Except.ok fun _ => DomStatus.available
    pricing := Except.ok fun _ => some 1200
    persistFails := fun _ => false }

/-- A running job three batches in. -/
def c4Job : SearchJob :=
  { id := "job-4", client_id := "c", status := SearchStatus.running,
    batch_num := 3, quiz_responses := "quiz", followup_responses := none,
    error := none, total_input_tokens := 0, total_output_tokens := 0 }

/-- The state holding `c4Job` with empty tables. -/
def c4State : DOState :=
  { job := some c4Job, domain_results := [], artifacts := [], alarm := none }

/-- An available row priced at exactly 0 cents. -/
def c5Row : DomainRow :=
  { batch_num := 1, domain := "zero.com", tld := "com",
    status := DomStatus.available, price_cents := some 0,
    score := mkRat 9 10, flags := [] }

/-- A configuration whose target is already met by zero good results. -/
def c3Cfg : Config := { maxBatches := 6, targetResults := 0 }

/-- A cancelled job with one stored row and an armed alarm. -/
def c7State : DOState :=
  { job := some { c4Job with status := SearchStatus.cancelled },
    domain_results := [c1Row], artifacts := [], alarm := some 0 }

/-- One generator tool call carrying a mixed-case duplicate. -/
def c8Call : DriverToolCall :=
  { toolName := DRIVER_TOOL_NAME, domains := ["Sunrise.IO", "sunrise.io"] }

/-- The batch of `c1Env` with every row insert failing. -/
def c10Env : BatchEnv :=
  { c1Env with persistFails := fun _ => true }

end Grove

namespace Grove


/-! ## Supporting lemmas -/


lemma processBatch_job_shape (env : BatchEnv) (s : DOState) (j : SearchJob)
    (hj : s.job = some j) :
    ∃ tin tout, (processBatch env s).2.job =
      some { j with batch_num := j.batch_num + 1,
                    total_input_tokens := j.total_input_tokens + tin,
                    total_output_tokens := j.total_output_tokens + tout } := by
  unfold processBatch incrementBatchNum addTokenUsage
  rw [hj]
  cases hD : env.driver with
  | error e =>
    refine ⟨0, 0, ?roll⟩
    simp
  | ok dr =>
    simp only
    split
    · exact ⟨dr.inputTokens, dr.outputTokens, by simp⟩
    · split
      · exact ⟨dr.inputTokens + env.swarmInputTokens,
          dr.outputTokens + env.swarmOutputTokens, by simp [Nat.add_assoc]⟩
      · cases hR : env.rdap with
        | error e => exact ⟨dr.inputTokens + env.swarmInputTokens,
            dr.outputTokens + env.swarmOutputTokens, by simp [Nat.add_assoc]⟩
        | ok f => exact ⟨dr.inputTokens + env.swarmInputTokens,
            dr.outputTokens + env.swarmOutputTokens, by simp [Nat.add_assoc]⟩

lemma updateJobStatus_artifacts (s : DOState) (st : SearchStatus) (err : Option String) :
    (updateJobStatus s st err).artifacts = s.artifacts := by
  unfold updateJobStatus; cases s.job <;> rfl

lemma updateJobStatus_rows (s : DOState) (st : SearchStatus) (err : Option String) :
    (updateJobStatus s st err).domain_results = s.domain_results := by
  unfold updateJobStatus; cases s.job <;> rfl

lemma updateJobStatus_status (s : DOState) (j : SearchJob) (st : SearchStatus)
    (err : Option String) (hj : s.job = some j) :
    (updateJobStatus s st err).job.map SearchJob.status = some st := by
  unfold updateJobStatus; rw [hj]; simp

lemma updateJobStatus_job_some (s : DOState) (j : SearchJob) (st : SearchStatus)
    (err : Option String) (hj : s.job = some j) :
    ∃ e2, (updateJobStatus s st err).job = some { j with status := st, error := e2 } := by
  unfold updateJobStatus; rw [hj]; exact ⟨_, rfl⟩

lemma scheduleAlarm_job (s : DOState) (n : Nat) : (scheduleAlarm s n).job = s.job := rfl

lemma generateFollowupQuiz_job (cfg : Config) (s : DOState) (job : SearchJob) :
    (generateFollowupQuiz cfg s job).job = s.job := rfl

lemma alarmHandler_no_job (cfg : Config) (env : BatchEnv) (s : DOState)
    (hj : s.job = none) : alarmHandler cfg env s = s := by
  unfold alarmHandler; rw [hj]

lemma alarmHandler_not_running (cfg : Config) (env : BatchEnv) (s : DOState)
    (j : SearchJob) (hj : s.job = some j) (h : j.status ≠ SearchStatus.running) :
    alarmHandler cfg env s = s := by
  unfold alarmHandler; rw [hj]; simp [h]

lemma alarmHandler_running_job (cfg : Config) (env : BatchEnv) (s : DOState)
    (j : SearchJob) (hj : s.job = some j) (hrun : j.status = SearchStatus.running) :
    ∃ j2, (alarmHandler cfg env s).job = some j2 ∧ j2.batch_num = j.batch_num + 1 ∧
      (j2.status = SearchStatus.running → j2.batch_num < cfg.maxBatches) := by
  obtain ⟨tin, tout, hshape⟩ := processBatch_job_shape env s j hj
  cases hr : (processBatch env s).1 with
  | error e =>
    have hred : alarmHandler cfg env s =
        updateJobStatus (processBatch env s).2 SearchStatus.failed (some e) := by
      unfold alarmHandler
      rw [hj]
      simp only [hrun, ne_eq, not_true_eq_false, if_false, hr]
    obtain ⟨e2, hje⟩ := updateJobStatus_job_some (processBatch env s).2 _ _ _ hshape
    rw [hred, hje]
    exact ⟨_, rfl, rfl, by intro h; simp at h⟩
  | ok r =>
    have hred : alarmHandler cfg env s =
        (if getGoodResultsCount (processBatch env s).2.domain_results ≥ cfg.targetResults then
          updateJobStatus (processBatch env s).2 SearchStatus.complete none
        else if j.batch_num + 1 ≥ cfg.maxBatches then
          generateFollowupQuiz cfg
            (updateJobStatus (processBatch env s).2 SearchStatus.needs_followup none)
            { j with batch_num := j.batch_num + 1,
                     total_input_tokens := j.total_input_tokens + tin,
                     total_output_tokens := j.total_output_tokens + tout }
        else scheduleAlarm (processBatch env s).2 (10 * 1000)) := by
      unfold alarmHandler
      rw [hj]
      simp only [hrun, ne_eq, not_true_eq_false, if_false, hr, hshape]
    rw [hred]
    by_cases hgood : getGoodResultsCount (processBatch env s).2.domain_results ≥ cfg.targetResults
    · rw [if_pos hgood]
      obtain ⟨e2, hje⟩ := updateJobStatus_job_some (processBatch env s).2 _ _ _ hshape
      rw [hje]
      exact ⟨_, rfl, rfl, by intro h; simp at h⟩
    · rw [if_neg hgood]
      by_cases hmax : j.batch_num + 1 ≥ cfg.maxBatches
      · rw [if_pos hmax, generateFollowupQuiz_job]
        obtain ⟨e2, hje⟩ := updateJobStatus_job_some (processBatch env s).2 _ _ _ hshape
        rw [hje]
        exact ⟨_, rfl, rfl, by intro h; simp at h⟩
      · rw [if_neg hmax, scheduleAlarm_job, hshape]
        refine ⟨_, rfl, rfl, ?lt⟩
        intro _
        show j.batch_num + 1 < cfg.maxBatches
        omega

lemma BatchInv.mono {cfg : Config} {r r2 : Nat} {s : DOState}
    (h : BatchInv cfg r s) (hr : r ≤ r2) : BatchInv cfg r2 s := by
  intro j hj
  obtain ⟨h1, h2⟩ := h j hj
  exact ⟨by omega, fun hrun => by have := h2 hrun; omega⟩

lemma step_preserves_BatchInv (cfg : Config) (h1 : 1 ≤ cfg.maxBatches)
    (s : DOState) (e : Event) (r : Nat) (hinv : BatchInv cfg r s) :
    BatchInv cfg (r + (if e.isResume then 1 else 0)) (step cfg s e) := by
  cases e with
  | start body =>
    simp only [step, Event.isResume, if_false, Nat.add_zero]
    unfold handleStart
    cases hj : s.job with
    | some j => exact hinv
    | none =>
      intro j2 hj2
      simp only [scheduleAlarm] at hj2
      injection hj2 with hj2
      subst hj2
      constructor
      · simp only [SearchJob.batch_num]
        omega
      · intro _
        simp only [SearchJob.batch_num]
        omega
  | alarmFire env =>
    simp only [step, Event.isResume, if_false, Nat.add_zero]
    cases ha : s.alarm with
    | none => exact hinv
    | some t =>
      set s2 : DOState := { s with alarm := none } with hs2
      have hjob : s2.job = s.job := rfl
      cases hj : s.job with
      | none =>
        rw [alarmHandler_no_job cfg env s2 (by rw [hjob, hj])]
        intro j2 hj2
        rw [hjob, hj] at hj2
        exact absurd hj2 (by simp)
      | some j =>
        by_cases hrun : j.status = SearchStatus.running
        · obtain ⟨j2, hj2, hbn, hlt⟩ :=
            alarmHandler_running_job cfg env s2 j (by rw [hjob, hj]) hrun
          intro j3 hj3
          rw [hj2] at hj3
          injection hj3 with hj3
          subst hj3
          obtain ⟨hb1, hb2⟩ := hinv j hj
          have hbj := hb2 hrun
          constructor
          · omega
          · intro hrun2
            have := hlt hrun2
            omega
        · rw [alarmHandler_not_running cfg env s2 j (by rw [hjob, hj]) hrun]
          intro j3 hj3
          rw [hjob, hj] at hj3
          injection hj3 with hj3
          subst hj3
          exact hinv j hj
  | resume resp =>
    simp only [step, Event.isResume, if_true]
    unfold handleResume
    cases hj : s.job with
    | none => exact (hinv.mono (by omega))
    | some j =>
      dsimp only
      by_cases hst : j.status ≠ SearchStatus.needs_followup
      · rw [if_pos hst]
        exact (hinv.mono (by omega))
      · rw [if_neg hst]
        intro j2 hj2
        simp only [scheduleAlarm] at hj2
        injection hj2 with hj2
        subst hj2
        obtain ⟨hb1, _⟩ := hinv j hj
        exact ⟨by simp; omega, fun _ => by simp; omega⟩
  | cancel =>
    simp only [step, Event.isResume, if_false, Nat.add_zero]
    unfold handleCancel
    cases hj : s.job with
    | none => exact hinv
    | some j =>
      dsimp only
      by_cases hst : j.status ≠ SearchStatus.running ∧ j.status ≠ SearchStatus.pending
      · rw [if_pos hst]
        exact hinv
      · rw [if_neg hst]
        intro j2 hj2
        obtain ⟨e2, hje⟩ := updateJobStatus_job_some s j SearchStatus.cancelled none hj
        rw [hje] at hj2
        injection hj2 with hj2
        subst hj2
        obtain ⟨hb1, _⟩ := hinv j hj
        exact ⟨by simp; omega, fun h => by simp at h⟩

lemma run_preserves_BatchInv (cfg : Config) (h1 : 1 ≤ cfg.maxBatches)
    (evs : List Event) (s : DOState) (r : Nat) (hinv : BatchInv cfg r s) :
    BatchInv cfg (r + evs.countP Event.isResume) (run cfg s evs) := by
  induction evs generalizing s r with
  | nil => simpa [run] using hinv
  | cons e evs ih =>
    have hstep := step_preserves_BatchInv cfg h1 s e r hinv
    have := ih (step cfg s e) (r + (if e.isResume then 1 else 0)) hstep
    have harith : r + (if e.isResume then 1 else 0) + evs.countP Event.isResume =
        r + (e :: evs).countP Event.isResume := by
      rw [List.countP_cons]
      cases e <;> simp [Event.isResume] <;> omega
    rw [harith] at this
    simpa [run, List.foldl_cons] using this

lemma step_job_isSome (cfg : Config) (s : DOState) (e : Event) (h : s.job.isSome) :
    (step cfg s e).job.isSome := by
  obtain ⟨j, hj⟩ := Option.isSome_iff_exists.mp h
  cases e with
  | start body =>
    simp only [step]
    unfold handleStart
    rw [hj]
    exact h
  | alarmFire env =>
    simp only [step]
    cases ha : s.alarm with
    | none => simp [hj]
    | some t =>
      have hjob : ({ s with alarm := none } : DOState).job = some j := hj
      by_cases hrun : j.status = SearchStatus.running
      · obtain ⟨j2, hj2, _, _⟩ :=
          alarmHandler_running_job cfg env { s with alarm := none } j hjob hrun
        simp [hj2]
      · rw [alarmHandler_not_running cfg env { s with alarm := none } j hjob hrun]
        exact h
  | resume resp =>
    simp only [step]
    unfold handleResume
    rw [hj]
    dsimp only
    split
    · simp [hj]
    · simp [scheduleAlarm]
  | cancel =>
    simp only [step]
    unfold handleCancel
    rw [hj]
    dsimp only
    split
    · simp [hj]
    · obtain ⟨e2, hje⟩ := updateJobStatus_job_some s j SearchStatus.cancelled none hj
      simp [hje]

lemma step_job_none_of_not_start (cfg : Config) (s : DOState) (e : Event)
    (hn : s.job = none) (hns : e.isStart = false) : (step cfg s e).job = none := by
  cases e with
  | start body => simp [Event.isStart] at hns
  | alarmFire env =>
    simp only [step]
    cases ha : s.alarm with
    | none => exact hn
    | some t =>
      rw [alarmHandler_no_job cfg env { s with alarm := none } hn]
      exact hn
  | resume resp =>
    simp only [step]
    unfold handleResume
    rw [hn]
    exact hn
  | cancel =>
    simp only [step]
    unfold handleCancel
    rw [hn]
    exact hn

lemma handleStart_fresh_isSome (cfg : Config) (s : DOState) (body : StartBody)
    (h : s.job = none) : (step cfg s (Event.start body)).job.isSome := by
  simp only [step]
  unfold handleStart
  rw [h]
  simp [scheduleAlarm]

lemma startCodes_of_some (cfg : Config) (evs : List Event) (s : DOState)
    (h : s.job.isSome) :
    startCodes cfg s evs = List.replicate (evs.countP Event.isStart) 409 := by
  induction evs generalizing s with
  | nil => rfl
  | cons e evs ih =>
    have hnext := step_job_isSome cfg s e h
    cases e with
    | start body =>
      obtain ⟨j, hj⟩ := Option.isSome_iff_exists.mp h
      have hcode : (handleStart body s).1 = 409 := by
        unfold handleStart; rw [hj]
      simp only [startCodes, hcode, ih (step cfg s (Event.start body)) hnext,
        List.countP_cons, Event.isStart]
      simp [List.replicate_succ]
    | alarmFire env =>
      simp only [startCodes, ih _ hnext, List.countP_cons, Event.isStart]
      simp
    | resume resp =>
      simp only [startCodes, ih _ hnext, List.countP_cons, Event.isStart]
      simp
    | cancel =>
      simp only [startCodes, ih _ hnext, List.countP_cons, Event.isStart]
      simp

lemma startCodes_of_none (cfg : Config) (evs : List Event) (s : DOState)
    (h : s.job = none) :
    startCodes cfg s evs =
      (match evs.countP Event.isStart with
        | 0 => []
        | Nat.succ n => 201 :: List.replicate n 409) := by
  induction evs generalizing s with
  | nil => rfl
  | cons e evs ih =>
    cases e with
    | start body =>
      have hcode : (handleStart body s).1 = 201 := by
        unfold handleStart; rw [h]
      have hsome : (step cfg s (Event.start body)).job.isSome :=
        handleStart_fresh_isSome cfg s body h
      simp only [startCodes, hcode, startCodes_of_some cfg evs _ hsome,
        List.countP_cons, Event.isStart]
      simp
    | alarmFire env =>
      have hn := step_job_none_of_not_start cfg s (Event.alarmFire env) h rfl
      simp only [startCodes, ih _ hn, List.countP_cons, Event.isStart]
      simp
    | resume resp =>
      have hn := step_job_none_of_not_start cfg s (Event.resume resp) h rfl
      simp only [startCodes, ih _ hn, List.countP_cons, Event.isStart]
      simp
    | cancel =>
      have hn := step_job_none_of_not_start cfg s Event.cancel h rfl
      simp only [startCodes, ih _ hn, List.countP_cons, Event.isStart]
      simp

lemma step_cancelled (cfg : Config) (s : DOState) (e : Event) (j : SearchJob)
    (hj : s.job = some j) (hc : j.status = SearchStatus.cancelled) :
    (step cfg s e).job = some j ∧
    (step cfg s e).domain_results = s.domain_results ∧
    (step cfg s e).artifacts = s.artifacts := by
  cases e with
  | start body =>
    simp only [step]
    unfold handleStart
    rw [hj]
    exact ⟨hj, rfl, rfl⟩
  | alarmFire env =>
    simp only [step]
    cases ha : s.alarm with
    | none => exact ⟨hj, rfl, rfl⟩
    | some t =>
      have hjob : ({ s with alarm := none } : DOState).job = some j := hj
      rw [alarmHandler_not_running cfg env { s with alarm := none } j hjob
        (by rw [hc]; intro hcontra; cases hcontra)]
      exact ⟨hj, rfl, rfl⟩
  | resume resp =>
    simp only [step]
    unfold handleResume
    rw [hj]
    dsimp only
    rw [if_pos (by rw [hc]; intro hcontra; cases hcontra)]
    exact ⟨hj, rfl, rfl⟩
  | cancel =>
    simp only [step]
    unfold handleCancel
    rw [hj]
    dsimp only
    have hc1 : j.status ≠ SearchStatus.running := by rw [hc]; intro hx; cases hx
    have hc2 : j.status ≠ SearchStatus.pending := by rw [hc]; intro hx; cases hx
    rw [if_pos ⟨hc1, hc2⟩]
    exact ⟨hj, rfl, rfl⟩

lemma run_cancelled (cfg : Config) (evs : List Event) (s : DOState) (j : SearchJob)
    (hj : s.job = some j) (hc : j.status = SearchStatus.cancelled) :
    (run cfg s evs).job = some j ∧
    (run cfg s evs).domain_results = s.domain_results ∧
    (run cfg s evs).artifacts = s.artifacts := by
  induction evs generalizing s with
  | nil => exact ⟨hj, rfl, rfl⟩
  | cons e evs ih =>
    obtain ⟨h1, h2, h3⟩ := step_cancelled cfg s e j hj hc
    obtain ⟨g1, g2, g3⟩ := ih (step cfg s e) h1
    refine ⟨g1, ?rows, ?arts⟩
    · rw [show run cfg s (e :: evs) = run cfg (step cfg s e) evs from rfl, g2, h2]
    · rw [show run cfg s (e :: evs) = run cfg (step cfg s e) evs from rfl, g3, h3]

lemma processBatch_ok (env : BatchEnv) (s : DOState) (dr : DriverResult)
    (f : String → DomStatus) (hdr : env.driver = Except.ok dr)
    (hrd : env.rdap = Except.ok f) :
    ∃ r, (processBatch env s).1 = Except.ok r := by
  unfold processBatch
  rw [hdr]
  dsimp only
  split
  · exact ⟨_, rfl⟩
  · split
    · exact ⟨_, rfl⟩
    · rw [hrd]
      exact ⟨_, rfl⟩

lemma alarmHandler_ok_not_failed (cfg : Config) (env : BatchEnv) (s : DOState)
    (j : SearchJob) (r : BatchResult) (hj : s.job = some j)
    (hrun : j.status = SearchStatus.running)
    (hok : (processBatch env s).1 = Except.ok r) :
    (alarmHandler cfg env s).job.map SearchJob.status ≠ some SearchStatus.failed := by
  obtain ⟨tin, tout, hshape⟩ := processBatch_job_shape env s j hj
  have hred : alarmHandler cfg env s =
      (if getGoodResultsCount (processBatch env s).2.domain_results ≥ cfg.targetResults then
        updateJobStatus (processBatch env s).2 SearchStatus.complete none
      else if j.batch_num + 1 ≥ cfg.maxBatches then
        generateFollowupQuiz cfg
          (updateJobStatus (processBatch env s).2 SearchStatus.needs_followup none)
          { j with batch_num := j.batch_num + 1,
                   total_input_tokens := j.total_input_tokens + tin,
                   total_output_tokens := j.total_output_tokens + tout }
      else scheduleAlarm (processBatch env s).2 (10 * 1000)) := by
    unfold alarmHandler
    rw [hj]
    simp only [hrun, ne_eq, not_true_eq_false, if_false, hok, hshape]
  rw [hred]
  by_cases hgood : getGoodResultsCount (processBatch env s).2.domain_results ≥ cfg.targetResults
  · rw [if_pos hgood, updateJobStatus_status _ _ _ _ hshape]
    simp
  · rw [if_neg hgood]
    by_cases hmax : j.batch_num + 1 ≥ cfg.maxBatches
    · rw [if_pos hmax]
      have : (generateFollowupQuiz cfg
          (updateJobStatus (processBatch env s).2 SearchStatus.needs_followup none)
          { j with batch_num := j.batch_num + 1,
                   total_input_tokens := j.total_input_tokens + tin,
                   total_output_tokens := j.total_output_tokens + tout }).job.map
            SearchJob.status = some SearchStatus.needs_followup := by
        rw [generateFollowupQuiz_job]
        exact updateJobStatus_status _ _ _ _ hshape
      rw [this]
      simp
    · rw [if_neg hmax, scheduleAlarm_job, hshape]
      simp [hrun]

lemma pricingCategory_bundled (pc : Option Int) :
    (pricingCategory pc = "bundled" ↔ ∃ p, pc = some p ∧ p ≠ 0 ∧ p ≤ 3000) := by
  cases pc with
  | none => simp [pricingCategory]
  | some p =>
    dsimp only [pricingCategory]
    split_ifs with h0 h3 h5 <;> simp_all

lemma pricingCategory_recommended (pc : Option Int) :
    (pricingCategory pc = "recommended" ↔ ∃ p, pc = some p ∧ 3000 < p ∧ p ≤ 5000) := by
  cases pc with
  | none => simp [pricingCategory]
  | some p =>
    dsimp only [pricingCategory]
    split_ifs with h0 h3 h5 <;> simp_all <;> omega

lemma pricingCategory_premium (pc : Option Int) :
    (pricingCategory pc = "premium" ↔ ∃ p, pc = some p ∧ 5000 < p) := by
  cases pc with
  | none => simp [pricingCategory]
  | some p =>
    dsimp only [pricingCategory]
    split_ifs with h0 h3 h5 <;> simp_all <;> omega

lemma pricingCategory_unknown (pc : Option Int) :
    (pricingCategory pc = "unknown" ↔ (pc = none ∨ pc = some 0)) := by
  cases pc with
  | none => simp [pricingCategory]
  | some p =>
    dsimp only [pricingCategory]
    split_ifs with h0 h3 h5 <;> simp_all

lemma summaryCategory_count_bundled (r : DomainRow) :
    (summaryCategory r.price_cents == "bundled") =
      (match r.price_cents with
        | some p => decide (p ≤ 3000)
        | none => false) := by
  cases hp : r.price_cents with
  | none => simp [summaryCategory]
  | some p =>
    dsimp only [summaryCategory]
    split_ifs with h3 h5 h5b <;> simp_all

lemma summaryCategory_count_recommended (r : DomainRow) :
    (summaryCategory r.price_cents == "recommended") =
      (match r.price_cents with
        | some p => decide (3000 < p ∧ p ≤ 5000)
        | none => false) := by
  cases hp : r.price_cents with
  | none => simp [summaryCategory]
  | some p =>
    dsimp only [summaryCategory]
    split_ifs with h3 h5 h5b <;> simp_all <;> omega

lemma summaryCategory_count_premium (r : DomainRow) :
    (summaryCategory r.price_cents == "premium") =
      (match r.price_cents with
        | some p => decide (5000 < p)
        | none => false) := by
  cases hp : r.price_cents with
  | none => simp [summaryCategory]
  | some p =>
    dsimp only [summaryCategory]
    split_ifs with h3 h5 h5b <;> simp_all <;> omega

lemma summaryCategory_count_unknown (r : DomainRow) :
    (summaryCategory r.price_cents == "unknown") = (r.price_cents == none) := by
  cases hp : r.price_cents with
  | none => simp [summaryCategory]
  | some p =>
    dsimp only [summaryCategory]
    split_ifs with h3 h5 h5b <;> simp_all

lemma lengthScore_eq_spec (n : Nat) : lengthScore n = specLengthScore n := by
  unfold lengthScore specLengthScore
  by_cases h8 : n ≤ 8
  · simp [h8]
  · rw [if_neg h8, if_neg h8]
    by_cases h15 : n ≤ 15
    · rw [if_pos h15]
      by_cases hc : 1 - ((n : ℚ) - 8) * (1/10) ≤ 3/10
      · rw [if_pos hc]
        have h15q : (15 : ℚ) ≤ (n : ℚ) := by
          by_contra hlt
          push_neg at hlt
          have : (n : ℚ) < 15 := hlt
          nlinarith
        have hn15 : n = 15 := by
          have : (15 : ℚ) ≤ (n : ℚ) := h15q
          have h1 : 15 ≤ n := by exact_mod_cast this
          omega
        subst hn15
        norm_num
      · rw [if_neg hc]
    · rw [if_neg h15]
      have h16 : (16 : ℚ) ≤ (n : ℚ) := by
        have : 16 ≤ n := by omega
        exact_mod_cast this
      rw [if_pos (by nlinarith)]

lemma quickRawScore_eq (d : String) : quickRawScore d = rawScore d := by
  unfold quickRawScore rawScore
  dsimp only
  rw [lengthScore_eq_spec]
  by_cases hP : hasConsonantRun (namePart d) = true <;>
    by_cases hN : (namePart d).data.any Char.isDigit = true <;>
      by_cases hH : (namePart d).data.contains '-' = true <;>
        simp [hP, hN, hH] <;> ring

lemma nameMatches_ne_nil (s : String) (h : nameMatches s = true) : s.data ≠ [] := by
  intro hnil
  unfold nameMatches at h
  rw [hnil] at h
  simp at h

lemma ite_false_left (c : Prop) [Decidable c] (x : Bool) :
    ((if c then false else x) = true) ↔ (¬ c ∧ x = true) := by
  split_ifs with h
  · simp [h]
  · simp [h]

lemma isValidDomain_iff (d : String) : isValidDomain d = true ↔ specValidDomain d := by
  unfold isValidDomain specValidDomain
  dsimp only
  rw [ite_false_left, ite_false_left, ite_false_left, ite_false_left]
  have hcont : ((d.data.contains '.') = true) ↔ '.' ∈ d.data := by
    unfold List.contains
    exact List.elem_iff
  constructor
  · intro h
    obtain ⟨h1, h2, h3, h4, h5⟩ := h
    simp only [Bool.not_eq_true, Bool.not_eq_false', Bool.not_eq_true'] at h2
    simp only [Bool.or_eq_true, not_or, decide_eq_true_eq, not_lt, Bool.not_eq_true,
      Bool.not_eq_false', Bool.not_eq_true'] at h3 h4
    exact ⟨by omega, hcont.mp (by simpa using h2), by omega,
      by simpa using h3.2, by omega, h5⟩
  · intro h
    obtain ⟨ha, hb, hc, hd, he, hf⟩ := h
    have hpos : 1 ≤ ((splitParts (strToLower d)).headD "").data.length := by
      cases hx : ((splitParts (strToLower d)).headD "").data with
      | nil => exact absurd hx (nameMatches_ne_nil _ hf)
      | cons y ys => simp
    refine ⟨by omega, ?dot, ?tl, ?nl, hf⟩
    · simp only [Bool.not_eq_true, Bool.not_eq_false', Bool.not_eq_true']
      simpa using hcont.mpr hb
    · simp only [Bool.or_eq_true, not_or, decide_eq_true_eq, not_lt, Bool.not_eq_true,
        Bool.not_eq_false', Bool.not_eq_true']
      exact ⟨by omega, by simpa using hd⟩
    · simp only [Bool.or_eq_true, not_or, decide_eq_true_eq, not_lt]
      constructor
      · omega
      · omega

lemma createCandidate_domain (d : String) (bn : Nat) :
    (createCandidate d bn).domain = strToLower d := rfl

lemma collectCandidates_sound (bn : Nat) (ds : List String) :
    ∀ seen c, c ∈ collectCandidates bn seen ds →
      ∃ d, d ∈ ds ∧ isValidDomain d = true ∧ c = createCandidate d bn := by
  induction ds with
  | nil => intro seen c hc; simp [collectCandidates] at hc
  | cons d ds ih =>
    intro seen c hc
    unfold collectCandidates at hc
    by_cases hacc : (isValidDomain d && !(seen.contains (strToLower d))) = true
    · rw [if_pos hacc] at hc
      rcases List.mem_cons.mp hc with h | h
      · exact ⟨d, List.mem_cons_self d ds,
          (Bool.and_eq_true_iff.mp hacc).1, h⟩
      · obtain ⟨d2, hd2, hv, he⟩ := ih _ c h
        exact ⟨d2, List.mem_cons_of_mem d hd2, hv, he⟩
    · rw [if_neg hacc] at hc
      obtain ⟨d2, hd2, hv, he⟩ := ih _ c hc
      exact ⟨d2, List.mem_cons_of_mem d hd2, hv, he⟩

lemma collectCandidates_nodup (bn : Nat) (ds : List String) :
    ∀ seen, ((collectCandidates bn seen ds).map (fun c => c.domain)).Nodup ∧
      (∀ c ∈ collectCandidates bn seen ds, ¬ c.domain ∈ seen) := by
  induction ds with
  | nil => intro seen; simp [collectCandidates]
  | cons d ds ih =>
    intro seen
    unfold collectCandidates
    by_cases hacc : (isValidDomain d && !(seen.contains (strToLower d))) = true
    · rw [if_pos hacc]
      obtain ⟨ihn, ihs⟩ := ih (strToLower d :: seen)
      have hnotin : ¬ strToLower d ∈
          ((collectCandidates bn (strToLower d :: seen) ds).map (fun c => c.domain)) := by
        intro hmem
        rw [List.mem_map] at hmem
        obtain ⟨c2, hc2, hdom⟩ := hmem
        exact (ihs c2 hc2) (hdom ▸ List.mem_cons_self _ _)
      constructor
      · rw [List.map_cons]
        exact List.nodup_cons.mpr ⟨hnotin, ihn⟩
      · intro c hc
        rcases List.mem_cons.mp hc with h | h
        · subst h
          rw [createCandidate_domain]
          have := (Bool.and_eq_true_iff.mp hacc).2
          simp only [Bool.not_eq_true'] at this
          intro hmem
          rw [show seen.contains (strToLower d) = List.elem (strToLower d) seen from rfl]
            at this
          exact absurd (List.elem_iff.mpr hmem) (by rw [this]; simp)
        · intro hmem
          exact (ihs c h) (List.mem_cons_of_mem _ hmem)
    · rw [if_neg hacc]
      obtain ⟨ihn, ihs⟩ := ih seen
      exact ⟨ihn, ihs⟩

lemma collectCandidates_complete (bn : Nat) (ds : List String) :
    ∀ seen d, d ∈ ds → isValidDomain d = true →
      strToLower d ∈ seen ∨
        ∃ c, c ∈ collectCandidates bn seen ds ∧ c.domain = strToLower d := by
  induction ds with
  | nil => intro seen d hd; simp at hd
  | cons d0 ds ih =>
    intro seen d hd hv
    unfold collectCandidates
    rcases List.mem_cons.mp hd with heq | htail
    · subst heq
      by_cases hacc : (isValidDomain d && !(seen.contains (strToLower d))) = true
      · rw [if_pos hacc]
        exact Or.inr ⟨createCandidate d bn, List.mem_cons_self _ _,
          createCandidate_domain d bn⟩
      · rw [if_neg hacc]
        left
        rw [hv] at hacc
        simp only [Bool.true_and, Bool.not_eq_true', Bool.not_eq_false] at hacc
        have : seen.contains (strToLower d) = true := by
          cases hcc : seen.contains (strToLower d) with
          | true => rfl
          | false => rw [hcc] at hacc; simp at hacc
        rw [show seen.contains (strToLower d) = List.elem (strToLower d) seen from rfl]
          at this
        exact List.elem_iff.mp this
    · by_cases hacc : (isValidDomain d0 && !(seen.contains (strToLower d0))) = true
      · rw [if_pos hacc]
        rcases ih (strToLower d0 :: seen) d htail hv with hseen | ⟨c, hc, hdom⟩
        · rcases List.mem_cons.mp hseen with heq2 | hseen2
          · exact Or.inr ⟨createCandidate d0 bn, List.mem_cons_self _ _,
              by rw [createCandidate_domain, heq2]⟩
          · exact Or.inl hseen2
        · exact Or.inr ⟨c, List.mem_cons_of_mem _ hc, hdom⟩
      · rw [if_neg hacc]
        exact ih seen d htail hv


/-! ## Claims -/


/-- C1: the good-results count that `status()` reports and that the
termination decision uses is the number of available rows with score at
least 0.8 — in `swarm.ts`.  The legacy `durable-object.ts` variant counts
available rows with score at least 0.4 instead, and the per-batch
`new_good_results` figure of the batch report also uses the 0.4
threshold: on a single available row of score 0.5 the legacy counter
says 1 where the 0.8 definition says 0. -/
theorem c1_good_results_threshold :
    legacyGetGoodResultsCount [c1Row] = 1 ∧
    getGoodResultsCount [c1Row] = 0 ∧
    (processBatch c1Env c4State).1 = Except.ok
      { batch_num := 4, candidates_generated := 1, candidates_evaluated := 1,
        domains_checked := 1, domains_available := 1, new_good_results := 1 } ∧
    getGoodResultsCount (processBatch c1Env c4State).2.domain_results = 0 := by
  refine ⟨by decide, by decide, by rfl, by decide⟩

/-- C2 counterexample: starting a job, exhausting the six-batch budget
with empty batches, resuming from `needs_followup` and letting one more
batch run leaves a reachable state with `batch_num = 7 > 6 =
MAX_BATCHES`, refuting the claimed global bound `batch_num ≤
MAX_BATCHES`. -/
theorem c2_batch_budget_counterexample :
    (run defaultConfig initState c2Trace).job.map SearchJob.batch_num = some 7 ∧
    (run defaultConfig initState c2Trace).job.map SearchJob.status =
      some SearchStatus.needs_followup ∧
    defaultConfig.maxBatches = 6 ∧ ¬(7 ≤ 6) := by
  refine ⟨?a, ?b, rfl, by omega⟩
  · rfl
  · rfl

/-- C2 (amended): in every reachable state, `batch_num` is at most
`MAX_BATCHES` plus the number of `/resume` calls in the trace (so the
claimed bound holds until the first resume), and every `processBatch`
run increments `batch_num` by exactly one at its start. -/
theorem c2_batch_budget_amended (cfg : Config) (h1 : 1 ≤ cfg.maxBatches) (evs : List Event) :
    (∀ j, (run cfg initState evs).job = some j →
      j.batch_num ≤ cfg.maxBatches + evs.countP Event.isResume) ∧
    (∀ env s j, s.job = some j →
      (processBatch env s).2.job.map SearchJob.batch_num = some (j.batch_num + 1)) := by
  constructor
  · intro j hj
    have hinit : BatchInv cfg 0 initState := by
      intro j0 hj0
      simp [initState] at hj0
    have hrun := run_preserves_BatchInv cfg h1 evs initState 0 hinit
    rw [Nat.zero_add] at hrun
    exact (hrun j hj).1
  · intro env s j hj
    obtain ⟨tin, tout, hshape⟩ := processBatch_job_shape env s j hj
    rw [hshape]
    rfl

/-- C2 witness: the amended bound and the increment, instantiated. -/
theorem c2_batch_budget_amended_witness :
    (processBatch emptyDriverEnv c4State).2.job.map SearchJob.batch_num = some 4 :=
  (c2_batch_budget_amended defaultConfig (by decide) []).2 emptyDriverEnv c4State c4Job rfl


/-- C3: when the alarm fires on a running job and the batch returns
normally, the controller decides in order: good count at or above the
target gives `complete`; otherwise `batch_num ≥ MAX_BATCHES` gives
`needs_followup` plus a stored `followup_quiz` artifact; otherwise the
status stays `running` and the timer is re-armed with a 10-second
delay. -/
theorem c3_alarm_decision (cfg : Config) (env : BatchEnv) (s : DOState) (j : SearchJob)
    (r : BatchResult)
    (hj : s.job = some j) (hrun : j.status = SearchStatus.running)
    (hok : (processBatch env s).1 = Except.ok r) :
    (getGoodResultsCount (processBatch env s).2.domain_results ≥ cfg.targetResults →
      alarmHandler cfg env s =
        updateJobStatus (processBatch env s).2 SearchStatus.complete none ∧
      (alarmHandler cfg env s).job.map SearchJob.status = some SearchStatus.complete) ∧
    (getGoodResultsCount (processBatch env s).2.domain_results < cfg.targetResults →
      j.batch_num + 1 ≥ cfg.maxBatches →
      (alarmHandler cfg env s).job.map SearchJob.status =
        some SearchStatus.needs_followup ∧
      ∃ a, (alarmHandler cfg env s).artifacts = (processBatch env s).2.artifacts ++ [a] ∧
        a.artifact_type = ArtifactType.followup_quiz ∧ a.batch_num = j.batch_num + 1) ∧
    (getGoodResultsCount (processBatch env s).2.domain_results < cfg.targetResults →
      j.batch_num + 1 < cfg.maxBatches →
      alarmHandler cfg env s = scheduleAlarm (processBatch env s).2 (10 * 1000) ∧
      (alarmHandler cfg env s).job.map SearchJob.status = some SearchStatus.running ∧
      (alarmHandler cfg env s).alarm = some 10000) := by
  obtain ⟨tin, tout, hshape⟩ := processBatch_job_shape env s j hj
  have hred : alarmHandler cfg env s =
      (if getGoodResultsCount (processBatch env s).2.domain_results ≥ cfg.targetResults then
        updateJobStatus (processBatch env s).2 SearchStatus.complete none
      else if j.batch_num + 1 ≥ cfg.maxBatches then
        generateFollowupQuiz cfg
          (updateJobStatus (processBatch env s).2 SearchStatus.needs_followup none)
          { j with batch_num := j.batch_num + 1,
                   total_input_tokens := j.total_input_tokens + tin,
                   total_output_tokens := j.total_output_tokens + tout }
      else scheduleAlarm (processBatch env s).2 (10 * 1000)) := by
    unfold alarmHandler
    rw [hj]
    simp only [hrun, ne_eq, not_true_eq_false, if_false, hok, hshape]
  refine ⟨?case1, ?case2, ?case3⟩
  · intro hgood
    rw [hred, if_pos hgood]
    exact ⟨rfl, updateJobStatus_status _ _ _ _ hshape⟩
  · intro hgood hmax
    rw [hred, if_neg (by omega), if_pos hmax]
    constructor
    · unfold generateFollowupQuiz
      simp only [DOState.job]
      exact updateJobStatus_status _ _ _ _ hshape
    · refine ⟨(⟨j.batch_num + 1, ArtifactType.followup_quiz,
        followupQuizContent j.id (j.batch_num + 1)
          (getTotalDomainsChecked (processBatch env s).2.domain_results)
          (getGoodResultsCount (processBatch env s).2.domain_results)
          cfg.targetResults⟩ : SearchArtifact), ?art, rfl, rfl⟩
      unfold generateFollowupQuiz saveArtifact
      simp [updateJobStatus_artifacts, updateJobStatus_rows]
  · intro hgood hlt
    rw [hred, if_neg (by omega), if_neg (by omega)]
    refine ⟨rfl, ?stat, rfl⟩
    unfold scheduleAlarm
    simp only [DOState.job]
    rw [hshape]
    simp [hrun]

/-- C3 witness: with target 0 the first case fires and the job
completes. -/
theorem c3_alarm_decision_witness :
    (alarmHandler c3Cfg emptyDriverEnv c4State).job.map SearchJob.status =
      some SearchStatus.complete :=
  ((c3_alarm_decision c3Cfg emptyDriverEnv c4State c4Job
    { batch_num := 4, candidates_generated := 0, candidates_evaluated := 0,
      domains_checked := 0, domains_available := 0, new_good_results := 0 }
    rfl rfl rfl).1 (by decide)).2


/-- C4 counterexample: a batch whose generator returns zero candidates
increments `batch_num`, leaves status and rows unchanged, and stores NO
`batch_report` artifact — the early return skips the `saveArtifact`
call, refuting the claimed zero-work report. -/
theorem c4_zero_work_counterexample :
    (processBatch emptyDriverEnv c4State).1 = Except.ok
      { batch_num := 4, candidates_generated := 0, candidates_evaluated := 0,
        domains_checked := 0, domains_available := 0, new_good_results := 0 } ∧
    (processBatch emptyDriverEnv c4State).2.artifacts = [] ∧
    (processBatch emptyDriverEnv c4State).2.domain_results = [] ∧
    (processBatch emptyDriverEnv c4State).2.job.map SearchJob.status =
      some SearchStatus.running ∧
    (processBatch emptyDriverEnv c4State).2.job.map SearchJob.batch_num = some 4 := by
  refine ⟨rfl, rfl, rfl, rfl, rfl⟩

/-- C4 (amended): when no candidates survive deduplication the pipeline
returns a zero-work batch result and stops, consuming one batch slot and
leaving status, rows and artifacts unchanged; no batch-report artifact
is recorded on this path. -/
theorem c4_zero_work_amended (env : BatchEnv) (s : DOState) (j : SearchJob) (dr : DriverResult)
    (hj : s.job = some j) (hdr : env.driver = Except.ok dr)
    (hded : (dr.candidates.filter
      (fun c => !(((getCheckedDomains s.domain_results).map strToLower).contains
        (strToLower c.domain)))).isEmpty = true) :
    (processBatch env s).1 = Except.ok
      { batch_num := j.batch_num + 1
        candidates_generated := dr.candidates.length
        candidates_evaluated := 0
        domains_checked := 0
        domains_available := 0
        new_good_results := 0 } ∧
    (processBatch env s).2.domain_results = s.domain_results ∧
    (processBatch env s).2.artifacts = s.artifacts ∧
    (processBatch env s).2.job.map SearchJob.status = some j.status ∧
    (processBatch env s).2.job.map SearchJob.batch_num = some (j.batch_num + 1) := by
  unfold processBatch incrementBatchNum addTokenUsage
  rw [hj, hdr]
  simp only
  rw [show ({ s with
      job := some { j with batch_num := j.batch_num + 1 } } : DOState).domain_results =
      s.domain_results from rfl, hded]
  simp

/-- C4 witness: the amended behaviour at a concrete zero-candidate
batch. -/
theorem c4_zero_work_amended_witness :
    (processBatch emptyDriverEnv c4State).2.domain_results = c4State.domain_results ∧
    (processBatch emptyDriverEnv c4State).2.artifacts = c4State.artifacts :=
  ⟨(c4_zero_work_amended emptyDriverEnv c4State c4Job
      { candidates := [], inputTokens := 0, outputTokens := 0 } rfl rfl rfl).2.1,
   (c4_zero_work_amended emptyDriverEnv c4State c4Job
      { candidates := [], inputTokens := 0, outputTokens := 0 } rfl rfl rfl).2.2.1⟩


/-- C5 counterexample: an available row priced at exactly 0 cents is
annotated `pricing_category = "unknown"` by `handleGetResults` (the JS
truthiness test) although `0 ≤ 3000`, while the SQL histogram counts the
same row as `bundled` — refuting both `bundled ↔ price ≤ 3000` and
`unknown ↔ price is null`, and the claimed agreement between annotation
and histogram at that price. -/
theorem c5_results_counterexample :
    (handleGetResults [c5Row]).map AnnotatedResult.pricing_category = ["unknown"] ∧
    ((0:Int) ≤ 3000) ∧
    getPricingSummary [c5Row] "bundled" = 1 ∧
    getPricingSummary [c5Row] "unknown" = 0 := by
  refine ⟨?a, by omega, ?c, ?d⟩ <;> decide

/-- C5 (amended): `results()` returns at most 50 rows, all available,
ordered by score descending then price ascending with NULLs last; the
annotation maps a null OR zero price to `unknown`, a nonzero price at
most 3000 to `bundled`, 3001..5000 to `recommended` and above 5000 to
`premium`; the histogram uses the same cent cutoffs but treats only NULL
as `unknown` (so a zero price counts as `bundled` there). -/
theorem c5_results_amended (rows : List DomainRow) :
    (handleGetResults rows).length ≤ 50 ∧
    (∀ a ∈ handleGetResults rows, a.row.status = DomStatus.available) ∧
    List.Pairwise resultsOrder ((handleGetResults rows).map AnnotatedResult.row) ∧
    (∀ a ∈ handleGetResults rows,
      (a.pricing_category = "bundled" ↔
        ∃ p, a.row.price_cents = some p ∧ p ≠ 0 ∧ p ≤ 3000) ∧
      (a.pricing_category = "recommended" ↔
        ∃ p, a.row.price_cents = some p ∧ 3000 < p ∧ p ≤ 5000) ∧
      (a.pricing_category = "premium" ↔ ∃ p, a.row.price_cents = some p ∧ 5000 < p) ∧
      (a.pricing_category = "unknown" ↔
        (a.row.price_cents = none ∨ a.row.price_cents = some 0))) ∧
    getPricingSummary rows "bundled" =
      (rows.filter (fun r => r.status == DomStatus.available)).countP
        (fun r => match r.price_cents with
          | some p => decide (p ≤ 3000)
          | none => false) ∧
    getPricingSummary rows "recommended" =
      (rows.filter (fun r => r.status == DomStatus.available)).countP
        (fun r => match r.price_cents with
          | some p => decide (3000 < p ∧ p ≤ 5000)
          | none => false) ∧
    getPricingSummary rows "premium" =
      (rows.filter (fun r => r.status == DomStatus.available)).countP
        (fun r => match r.price_cents with
          | some p => decide (5000 < p)
          | none => false) ∧
    getPricingSummary rows "unknown" =
      (rows.filter (fun r => r.status == DomStatus.available)).countP
        (fun r => r.price_cents == none) := by
  refine ⟨?len, ?avail, ?sorted, ?cat, ?hb, ?hr, ?hp, ?hu⟩
  · unfold handleGetResults
    rw [List.length_map, List.length_take]
    omega
  · intro a ha
    unfold handleGetResults at ha
    rw [List.mem_map] at ha
    obtain ⟨r, hr, rfl⟩ := ha
    have hr2 := (List.take_sublist 50 _).subset hr
    have hr3 := (List.perm_insertionSort resultsOrder
      (rows.filter (fun r => r.status == DomStatus.available))).mem_iff.mp hr2
    rw [List.mem_filter] at hr3
    simpa using hr3.2
  · unfold handleGetResults
    rw [List.map_map]
    rw [show (AnnotatedResult.row ∘ fun r =>
      ({ row := r, pricing_category := pricingCategory r.price_cents } :
        AnnotatedResult)) = id from rfl, List.map_id]
    exact List.Pairwise.sublist (List.take_sublist 50 _)
      (List.sorted_insertionSort resultsOrder _)
  · intro a ha
    unfold handleGetResults at ha
    rw [List.mem_map] at ha
    obtain ⟨r, _, rfl⟩ := ha
    exact ⟨pricingCategory_bundled r.price_cents,
      pricingCategory_recommended r.price_cents,
      pricingCategory_premium r.price_cents,
      pricingCategory_unknown r.price_cents⟩
  · exact List.countP_congr (fun r _ => by rw [summaryCategory_count_bundled r])
  · exact List.countP_congr (fun r _ => by rw [summaryCategory_count_recommended r])
  · exact List.countP_congr (fun r _ => by rw [summaryCategory_count_premium r])
  · exact List.countP_congr (fun r _ => by rw [summaryCategory_count_unknown r])

/-- C5 witness: the amended statement at a one-row table. -/
theorem c5_results_amended_witness :
    (handleGetResults [c5Row]).length ≤ 50 ∧
    ({ row := c5Row, pricing_category := "unknown" } : AnnotatedResult).row.status =
      DomStatus.available :=
  ⟨(c5_results_amended [c5Row]).1,
   (c5_results_amended [c5Row]).2.1 _ (by decide)⟩


/-- C6: `start()` on a fresh object inserts one job row with
`status = running` and `batch_num = 0`, arms an immediate timer and
returns 201; on an existing job it returns 409 and leaves the state
untouched; hence over any trace the first `/start` answers 201 and every
later one answers 409. -/
theorem c6_start_once :
    (∀ body s, s.job = none →
      (handleStart body s).1 = 201 ∧
      (handleStart body s).2 =
        { s with
          job := some
            { id := body.job_id, client_id := body.client_id,
              status := SearchStatus.running, batch_num := 0,
              quiz_responses := body.quiz_responses, followup_responses := none,
              error := none, total_input_tokens := 0, total_output_tokens := 0 }
          alarm := some 0 }) ∧
    (∀ body s j, s.job = some j → handleStart body s = (409, s)) ∧
    (∀ cfg evs, startCodes cfg initState evs =
      (match evs.countP Event.isStart with
        | 0 => []
        | Nat.succ n => 201 :: List.replicate n 409)) := by
  refine ⟨?fresh, ?conflict, ?codes⟩
  · intro body s h
    unfold handleStart
    rw [h]
    exact ⟨rfl, rfl⟩
  · intro body s j hj
    unfold handleStart
    rw [hj]
  · intro cfg evs
    exact startCodes_of_none cfg evs initState rfl

/-- C6 witness: two starts on one object answer 201 then 409. -/
theorem c6_start_once_witness :
    (handleStart c2Body initState).1 = 201 ∧
    handleStart c2Body (handleStart c2Body initState).2 =
      (409, (handleStart c2Body initState).2) ∧
    startCodes defaultConfig initState [Event.start c2Body, Event.start c2Body] =
      [201, 409] := by
  refine ⟨(c6_start_once.1 c2Body initState rfl).1,
    c6_start_once.2.1 c2Body (handleStart c2Body initState).2
      { id := c2Body.job_id, client_id := c2Body.client_id,
        status := SearchStatus.running, batch_num := 0,
        quiz_responses := c2Body.quiz_responses, followup_responses := none,
        error := none, total_input_tokens := 0, total_output_tokens := 0 } rfl, ?codes⟩
  have h := c6_start_once.2.2 defaultConfig [Event.start c2Body, Event.start c2Body]
  simpa using h


/-- C7: `cancel()` succeeds exactly from `pending` or `running`,
transitioning to `cancelled`; any other status gets an error with no
state change; and from a cancelled state no later event — alarm firings
included — ever changes `domain_results`, `search_artifacts` or the
status. -/
theorem c7_cancel_terminal :
    (∀ s j, s.job = some j →
      (j.status = SearchStatus.pending ∨ j.status = SearchStatus.running) →
      handleCancel s = (200, updateJobStatus s SearchStatus.cancelled none) ∧
      (handleCancel s).2.job = some { j with status := SearchStatus.cancelled }) ∧
    (∀ s j, s.job = some j → j.status ≠ SearchStatus.pending →
      j.status ≠ SearchStatus.running → handleCancel s = (400, s)) ∧
    (∀ cfg evs s j, s.job = some j → j.status = SearchStatus.cancelled →
      (run cfg s evs).domain_results = s.domain_results ∧
      (run cfg s evs).artifacts = s.artifacts ∧
      (run cfg s evs).job.map SearchJob.status = some SearchStatus.cancelled) := by
  refine ⟨?ok, ?err, ?frozen⟩
  · intro s j hj hstat
    have hcond : ¬(j.status ≠ SearchStatus.running ∧ j.status ≠ SearchStatus.pending) := by
      rcases hstat with h | h <;> simp [h]
    constructor
    · unfold handleCancel
      rw [hj]
      dsimp only
      rw [if_neg hcond]
    · unfold handleCancel
      rw [hj]
      dsimp only
      rw [if_neg hcond]
      unfold updateJobStatus
      rw [hj]
  · intro s j hj hp hr
    unfold handleCancel
    rw [hj]
    dsimp only
    rw [if_pos ⟨hr, hp⟩]
  · intro cfg evs s j hj hc
    obtain ⟨h1, h2, h3⟩ := run_cancelled cfg evs s j hj hc
    refine ⟨h2, h3, ?stat⟩
    rw [h1]
    simp [hc]

/-- C7 witness: cancelling a running job, then firing the alarm and
cancelling again on a cancelled job, leaves the tables untouched. -/
theorem c7_cancel_terminal_witness :
    handleCancel c4State = (200, updateJobStatus c4State SearchStatus.cancelled none) ∧
    (run defaultConfig c7State [Event.alarmFire emptyDriverEnv, Event.cancel]).domain_results =
      c7State.domain_results :=
  ⟨(c7_cancel_terminal.1 c4State c4Job rfl (Or.inr rfl)).1,
   (c7_cancel_terminal.2.2 defaultConfig [Event.alarmFire emptyDriverEnv, Event.cancel]
      c7State { c4Job with status := SearchStatus.cancelled } rfl rfl).1⟩


/-- C8: a model-emitted candidate is accepted iff its length is at
least 4, it contains a period, the trailing label of the case-folded
string is at least two alphabetic characters, and the leading label
matches `^[a-z0-9]([a-z0-9-]*[a-z0-9])?$` with length at most 63; every
accepted candidate is folded to lowercase, and duplicates (after
lowercasing) within one reply collapse to a single occurrence. -/
theorem c8_candidate_validation :
    (∀ d, isValidDomain d = true ↔ specValidDomain d) ∧
    (∀ tcs bn c, c ∈ parseToolCall tcs bn →
      ∃ d, d ∈ ((tcs.filter (fun tc => tc.toolName = DRIVER_TOOL_NAME)).flatMap
          (fun tc => tc.domains)) ∧
        isValidDomain d = true ∧ c = createCandidate d bn ∧ c.domain = strToLower d) ∧
    (∀ tcs bn, ((parseToolCall tcs bn).map (fun c => c.domain)).Nodup) ∧
    (∀ tcs bn d,
      d ∈ ((tcs.filter (fun tc => tc.toolName = DRIVER_TOOL_NAME)).flatMap
        (fun tc => tc.domains)) →
      isValidDomain d = true →
      ∃ c, c ∈ parseToolCall tcs bn ∧ c.domain = strToLower d) := by
  refine ⟨isValidDomain_iff, ?sound, ?nodup, ?complete⟩
  · intro tcs bn c hc
    obtain ⟨d, hd, hv, he⟩ := collectCandidates_sound bn _ [] c hc
    exact ⟨d, hd, hv, he, by rw [he, createCandidate_domain]⟩
  · intro tcs bn
    exact (collectCandidates_nodup bn _ []).1
  · intro tcs bn d hd hv
    rcases collectCandidates_complete bn _ [] d hd hv with habs | h
    · simp at habs
    · exact h

/-- C8 witness: a mixed-case duplicate pair yields one lowercased
candidate, and the validity decomposition holds at `sunrise.io`. -/
theorem c8_candidate_validation_witness :
    specValidDomain "sunrise.io" ∧
    (∃ c, c ∈ parseToolCall [c8Call] 1 ∧ c.domain = strToLower "Sunrise.IO") := by
  refine ⟨(c8_candidate_validation.1 "sunrise.io").mp (by decide), ?dup⟩
  exact c8_candidate_validation.2.2.2 [c8Call] 1 "Sunrise.IO" (by decide) (by decide)


/-- C9 counterexample: the 0.3 length-score floor is already attained at
leading-label lengths 15, 16 and 17 (the claim says it is reached at
18), and the 15-consonant domain `bcdfghjklmnpqrs.io` has
`worth_checking = true` although its stored (rounded) score is exactly
0.4, not greater — so `worth_checking` is not `score > 0.4` on the
stored score. -/
theorem c9_heuristic_counterexample :
    lengthScore 15 = 3/10 ∧ lengthScore 16 = 3/10 ∧ lengthScore 17 = 3/10 ∧
    lengthScore 14 = 2/5 ∧ (15 : Nat) < 18 ∧
    (quickEvaluate "bcdfghjklmnpqrs.io").worthChecking = true ∧
    (quickEvaluate "bcdfghjklmnpqrs.io").score = 2/5 ∧
    ¬((quickEvaluate "bcdfghjklmnpqrs.io").score > 2/5) := by
  have hname : namePart "bcdfghjklmnpqrs.io" = "bcdfghjklmnpqrs" := rfl
  have hlen : (namePart "bcdfghjklmnpqrs.io").data.length = 15 := rfl
  have hraw : quickRawScore "bcdfghjklmnpqrs.io" =
      if (true : Bool) then ((lengthScore 15 + tldScore "io") / 2) * (7/10)
      else ((lengthScore 15 + tldScore "io") / 2) := rfl
  have hL : lengthScore 15 = 3/10 := by unfold lengthScore; norm_num
  have hL16 : lengthScore 16 = 3/10 := by unfold lengthScore; norm_num
  have hL17 : lengthScore 17 = 3/10 := by unfold lengthScore; norm_num
  have hL14 : lengthScore 14 = 2/5 := by unfold lengthScore; norm_num
  have hT : tldScore "io" = 17/20 := rfl
  have hraw2 : quickRawScore "bcdfghjklmnpqrs.io" = 161/400 := by
    rw [hraw, if_pos rfl, hL, hT]
    norm_num
  refine ⟨hL, hL16, hL17, hL14, by omega, ?worth, ?score, ?notgt⟩
  · show decide (quickRawScore "bcdfghjklmnpqrs.io" > 2/5) = true
    rw [hraw2]
    norm_num
  · show round2 (quickRawScore "bcdfghjklmnpqrs.io") = 2/5
    rw [hraw2]
    unfold round2
    norm_num [round_eq]
  · show ¬(round2 (quickRawScore "bcdfghjklmnpqrs.io") > 2/5)
    rw [hraw2]
    unfold round2
    norm_num [round_eq]

/-- C9 (amended): the heuristic score is
`(lengthScore + tldWeight)/2` times 0.7 for a 4-consonant run, 0.8 for a
digit and 0.85 for a hyphen, rounded to two decimals; the length score
decays 0.1 per character from 1.0 at length 8 and first attains the 0.3
floor at length 15; `worth_checking` compares the unrounded score with
0.4; `memorable` is leading-label length at most 12; `email_friendly` is
no digits and no hyphens; the TLD table is as stated with default
0.5. -/
theorem c9_heuristic_amended (d : String) :
    (quickEvaluate d).score = round2 (rawScore d) ∧
    ((quickEvaluate d).worthChecking = true ↔ rawScore d > 2/5) ∧
    ((quickEvaluate d).memorable = true ↔ (namePart d).data.length ≤ 12) ∧
    ((quickEvaluate d).emailFriendly = true ↔
      ((namePart d).data.any Char.isDigit = false ∧
        (namePart d).data.contains '-' = false)) ∧
    (∀ n, lengthScore n = specLengthScore n) ∧
    tldScore "com" = 1 ∧ tldScore "co" = 9/10 ∧ tldScore "io" = 17/20 ∧
    tldScore "dev" = 4/5 ∧ tldScore "app" = 4/5 ∧ tldScore "me" = 3/4 ∧
    tldScore "net" = 7/10 ∧ tldScore "org" = 7/10 ∧
    (∀ t, t ∉ (["com", "co", "io", "dev", "app", "me", "net", "org"] : List String) →
      tldScore t = 1/2) := by
  refine ⟨?score, ?worth, ?mem, ?email, lengthScore_eq_spec, rfl, rfl, rfl, rfl, rfl,
    rfl, rfl, rfl, ?dflt⟩
  · show round2 (quickRawScore d) = round2 (rawScore d)
    rw [quickRawScore_eq]
  · show decide (quickRawScore d > 2/5) = true ↔ rawScore d > 2/5
    rw [quickRawScore_eq]
    simp
  · show decide ((namePart d).data.length ≤ 12) = true ↔ (namePart d).data.length ≤ 12
    simp
  · show (!((namePart d).data.any Char.isDigit) && !((namePart d).data.contains '-')) =
      true ↔ _
    simp
  · intro t ht
    unfold tldScore
    simp only [List.mem_cons, List.not_mem_nil, or_false] at ht
    push_neg at ht
    obtain ⟨h1, h2, h3, h4, h5, h6, h7, h8⟩ := ht
    simp [h1, h2, h3, h4, h5, h6, h7, h8]

/-- C9 witness: the amended characterisation at `example.com` and at an
unlisted TLD. -/
theorem c9_heuristic_amended_witness :
    tldScore "xyz" = 1/2 ∧
    (quickEvaluate "example.com").score = round2 (rawScore "example.com") := by
  obtain ⟨h1, h2, h3, h4, h5, h6, h7, h8, h9, h10, h11, h12, h13, h14⟩ :=
    c9_heuristic_amended "example.com"
  exact ⟨h14 "xyz" (by decide), h1⟩


/-- C10: a failing row insert inside `saveDomainResult` is absorbed:
the row is silently dropped, `processBatch` still returns normally
whenever generator and RDAP do, and the alarm decision never lands in
`failed` because of a per-row persistence error. -/
theorem c10_persistence_isolation :
    (∀ fails rows r, fails r.domain = true →
      saveDomainResult fails rows r = rows) ∧
    (∀ fails rows r, fails r.domain = false →
      saveDomainResult fails rows r = insertOrReplace rows r) ∧
    (∀ env s dr f, env.driver = Except.ok dr → env.rdap = Except.ok f →
      ∃ r, (processBatch env s).1 = Except.ok r) ∧
    (∀ cfg env s j dr f, s.job = some j → j.status = SearchStatus.running →
      env.driver = Except.ok dr → env.rdap = Except.ok f →
      (alarmHandler cfg env s).job.map SearchJob.status ≠ some SearchStatus.failed) := by
  refine ⟨?absorb, ?write, ?ok, ?nofail⟩
  · intro fails rows r h
    unfold saveDomainResult
    rw [if_pos h]
  · intro fails rows r h
    unfold saveDomainResult
    rw [h]
    simp
  · intro env s dr f hdr hrd
    exact processBatch_ok env s dr f hdr hrd
  · intro cfg env s j dr f hj hrun hdr hrd
    obtain ⟨r, hok⟩ := processBatch_ok env s dr f hdr hrd
    exact alarmHandler_ok_not_failed cfg env s j r hj hrun hok

/-- C10 witness: with every insert failing, the batch still returns
normally and the failed row is simply absent. -/
theorem c10_persistence_isolation_witness :
    saveDomainResult (fun _ => true) [] c1Row = [] ∧
    (∃ r, (processBatch c10Env c4State).1 = Except.ok r) := by
  obtain ⟨h1, h2, h3, h4⟩ := c10_persistence_isolation
  exact ⟨h1 (fun _ => true) [] c1Row rfl,
    h3 c10Env c4State { candidates := [c1Cand], inputTokens := 0, outputTokens := 0 }
      (fun _ => DomStatus.available) rfl rfl⟩


end Grove
